import Mathlib

/-!
Shallow embedding of the entitlement core of `vpn-telegram`
(`src/user-bot/vpn_bot_user.py`, plus the cancel path of
`src/admin-bot/vpn_bot_admin.py`).

The SQLite store is modelled as lists of rows; each DB function of the
source becomes a pure Lean function from a `DB` state (and an explicit
`now` timestamp, replacing `now_ts()`) to a new state and result.
External side effects (the WireGuard provisioning script, i.e.
`ensure_client_files` / `revoke_user`) are modelled by explicit boolean
parameters / oracles saying whether the call succeeded (for `revoke_user`:
whether it completed without raising an exception — the source ignores
the exit code of the script).
-/

namespace VpnBot

/-- The `status` column of the `subscriptions` table:
`active | expired | canceled` (schema comment in `db_init`). -/
inductive Status where
  | active
  | expired
  | canceled
deriving DecidableEq, Repr

/-- One row of the `subscriptions` table. -/
structure SubRow where
  rid : Nat
  tg_id : Int
  start_ts : Int
  end_ts : Int
  status : Status
  plan : String
  promo_code : Option String
  tx_id : String
  created_at : Int
deriving DecidableEq, Repr

/-- One row of the `promo_codes` table. -/
structure PromoRow where
  code : String
  duration_days : Int
  max_uses : Int
  used_count : Int
  note : String
deriving DecidableEq, Repr

/-- The persistent store: `users` (only the `tg_id` key matters — `vpn_user`
is the derived string `u<tg_id>` and `tg_username` is display metadata),
`subscriptions`, `promo_codes`, and the AUTOINCREMENT counter for
`subscriptions.id`. -/
structure DB where
  users : List Int
  subs : List SubRow
  promos : List PromoRow
  nextId : Nat
deriving DecidableEq, Repr

/-- `db_upsert_user`: `INSERT ... ON CONFLICT(tg_id) DO UPDATE SET
tg_username=...` — creates the identity if absent; the conflict branch only
refreshes display metadata, which is not modelled. -/
def db_upsert_user (db : DB) (tg : Int) : DB :=
  if tg ∈ db.users then db else { db with users := db.users ++ [tg] }

/-- The `WHERE tg_id=? AND status=active AND end_ts>?` condition of
`db_get_active_sub`. -/
def isActiveUnexpired (tg now : Int) (r : SubRow) : Bool :=
  decide (r.tg_id = tg ∧ r.status = Status.active ∧ now < r.end_ts)

/-- The rows matched by the filter of `db_get_active_sub`. -/
def activeCandidates (db : DB) (tg now : Int) : List SubRow :=
  db.subs.filter (isActiveUnexpired tg now)

/-- `ORDER BY end_ts DESC LIMIT 1` over a row list: an element of maximal
`end_ts` (ties are broken towards the front of the list; SQLite leaves the
tie order unspecified). -/
def maxByEnd : List SubRow → Option SubRow
  | [] => none
  | r :: rs =>
    match maxByEnd rs with
    | none => some r
    | some m => if m.end_ts ≤ r.end_ts then some r else some m

/-- `db_get_active_sub`: `SELECT * FROM subscriptions WHERE tg_id=? AND
status=active AND end_ts>? ORDER BY end_ts DESC LIMIT 1`. -/
def db_get_active_sub (db : DB) (tg now : Int) : Option SubRow :=
  maxByEnd (activeCandidates db tg now)

/-- The row transformation of the
`UPDATE subscriptions SET status=expired WHERE tg_id=? AND status=active AND end_ts<=?`
statement inside `db_create_or_extend_sub`. -/
def expireStale (tg now : Int) (r : SubRow) : SubRow :=
  if r.tg_id = tg ∧ r.status = Status.active ∧ r.end_ts ≤ now then
    { r with status := Status.expired } else r

/-- `db_create_or_extend_sub`: reads the current active sub; if one exists
keeps its `start_ts` and adds `duration_days * 86400` to its `end_ts`,
otherwise starts at `now`; then runs
`UPDATE subscriptions SET status=expired WHERE tg_id=? AND status=active AND end_ts<=?`
(with `now`) and inserts a fresh `active` row; finally re-reads the
active sub.  `tx_id or ""` is `tx_id.getD ""`. -/
def db_create_or_extend_sub (db : DB) (now tg duration_days : Int)
    (plan : String) (promo_code : Option String) (tx_id : Option String) :
    DB × Option SubRow :=
  let curActive := db_get_active_sub db tg now
  let start_ts : Int := match curActive with
    | none => now
    | some c => c.start_ts
  let end_ts : Int := match curActive with
    | none => now + duration_days * 86400
    | some c => c.end_ts + duration_days * 86400
  let subs1 := db.subs.map (expireStale tg now)
  let newRow : SubRow :=
    { rid := db.nextId, tg_id := tg, start_ts := start_ts, end_ts := end_ts,
      status := Status.active, plan := plan, promo_code := promo_code,
      tx_id := tx_id.getD "", created_at := now }
  let db2 : DB := { db with subs := subs1 ++ [newRow], nextId := db.nextId + 1 }
  (db2, db_get_active_sub db2 tg now)

/-- The row transformation of the conditional update
`UPDATE promo_codes SET used_count = used_count + 1 WHERE code=? AND used_count<max_uses`
of `db_consume_promo`. -/
def incIfBelowCap (code : String) (p : PromoRow) : PromoRow :=
  if p.code = code ∧ p.used_count < p.max_uses then
    { p with used_count := p.used_count + 1 } else p

/-- `db_consume_promo`: `SELECT` the row; `None` if absent; `None` if
`used_count >= max_uses`; otherwise the conditional update
`UPDATE promo_codes SET used_count = used_count + 1 WHERE code=? AND used_count<max_uses`,
returning `None` if it affected zero rows and the *pre-increment* row
otherwise. -/
def db_consume_promo (db : DB) (code : String) : DB × Option PromoRow :=
  match db.promos.find? (fun p => p.code == code) with
  | none => (db, none)
  | some row =>
    if row.max_uses ≤ row.used_count then (db, none)
    else
      let matched := db.promos.filter
        (fun p => decide (p.code = code ∧ p.used_count < p.max_uses))
      if matched.length = 0 then (db, none)
      else
        ({ db with promos := db.promos.map (incIfBelowCap code) }, some row)

/-- `db_add_promo`: `INSERT` with `used_count = 0`; an `IntegrityError`
(duplicate primary key) yields `False` and no change. -/
def db_add_promo (db : DB) (code : String) (days max_uses : Int) (note : String) :
    DB × Bool :=
  match db.promos.find? (fun p => p.code == code) with
  | some _ => (db, false)
  | none =>
    ({ db with promos := db.promos ++
        [{ code := code, duration_days := days, max_uses := max_uses,
           used_count := 0, note := note }] }, true)

/-- `db_all_expired_to_revoke`: tg ids joined from `users` having some
subscription row with `status=active AND end_ts<=now` (the `GROUP BY`
deduplicates). -/
def db_all_expired_to_revoke (db : DB) (now : Int) : List Int :=
  (db.users.filter (fun t => db.subs.any (fun r =>
    decide (r.tg_id = t ∧ r.status = Status.active ∧ r.end_ts ≤ now)))).dedup

/-- The row transformation of
`UPDATE subscriptions SET status=<s> WHERE tg_id=? AND status=active`
(used with `expired` by `db_mark_user_expired` of the user bot and with
`canceled` by the admin-bot revoke path). -/
def markActiveAs (s : Status) (tg : Int) (r : SubRow) : SubRow :=
  if r.tg_id = tg ∧ r.status = Status.active then { r with status := s } else r

/-- `db_mark_user_expired`: `UPDATE subscriptions SET status=expired
WHERE tg_id=? AND status=active` — note: no `end_ts` condition. -/
def db_mark_user_expired (db : DB) (tg : Int) : DB :=
  { db with subs := db.subs.map (markActiveAs Status.expired tg) }

/-- Admin-bot cancel path (`notify_user_revoked_if_possible`):
`UPDATE subscriptions SET status=canceled WHERE tg_id=? AND status=active`. -/
def db_mark_user_canceled (db : DB) (tg : Int) : DB :=
  { db with subs := db.subs.map (markActiveAs Status.canceled tg) }

/-- `grant_or_extend_access`: upserts the identity, persists the grant via
`db_create_or_extend_sub`, then calls the provisioning script
(`ensure_client_files`, modelled by `provision_ok`); returns `False` when
provisioning failed — the already-persisted grant is not touched. -/
def grant_or_extend_access (db : DB) (now tg duration_days : Int)
    (plan_key : String) (promo_code : Option String) (tx_id : Option String)
    (provision_ok : Bool) : DB × Bool :=
  let db1 := db_upsert_user db tg
  let res := db_create_or_extend_sub db1 now tg duration_days plan_key promo_code tx_id
  (res.1, provision_ok)

/-- Observable outcome of `/redeem` (`cmd_redeem`): the source replies
with one combined message for an invalid-or-exhausted code, and a distinct
message when granting failed after consumption. -/
inductive RedeemOutcome where
  | invalidOrExhausted
  | aborted
  | provisionFailed
  | success
deriving DecidableEq, Repr

/-- `cmd_redeem`: `db_consume_promo` runs (and commits) on its own
connection; on success `grant_or_extend_access` runs afterwards in separate
transactions.  `grantAborts` models an exception between the two (after the
increment is committed but before any grant row is written): the handler
propagates it, leaving the state exactly as `db_consume_promo` left it. -/
def cmd_redeem (db : DB) (now tg : Int) (code : String)
    (grantAborts provision_ok : Bool) : DB × RedeemOutcome :=
  let res1 := db_consume_promo db code
  match res1.2 with
  | none => (res1.1, RedeemOutcome.invalidOrExhausted)
  | some row =>
    if grantAborts then (res1.1, RedeemOutcome.aborted)
    else
      let res2 := grant_or_extend_access res1.1 now tg row.duration_days
        "promo" (some code) none provision_ok
      (res2.1, if res2.2 then RedeemOutcome.success else RedeemOutcome.provisionFailed)

/-- `job_expiry_check`: computes the victims, then for each one calls
`revoke_user` and, when that call did not raise (`revokeOk t`), marks the
user expired; a raising call is logged and the user left untouched for the
next sweep.  The returned list records the successfully revoked users. -/
def job_expiry_check (db : DB) (now : Int) (revokeOk : Int → Bool) :
    DB × List Int :=
  let victims := db_all_expired_to_revoke db now
  victims.foldl (fun acc t =>
    if revokeOk t then (db_mark_user_expired acc.1 t, acc.2 ++ [t]) else acc)
    (db, [])

/-- The `used_count` column of a promo code, when the code exists. -/
def promoUsed (db : DB) (code : String) : Option Int :=
  (db.promos.find? (fun p => p.code == code)).map (fun p => p.used_count)

/-- `n` consecutive `db_consume_promo` calls for `code` (the sequential
interleaving of `n` redeem attempts): final state plus how many of the
calls succeeded (returned a row). -/
def consumeRun (db : DB) (code : String) : Nat → DB × Nat
  | 0 => (db, 0)
  | Nat.succ k =>
    let prev := consumeRun db code k
    let res := db_consume_promo prev.1 code
    (res.1, prev.2 + (if res.2.isSome then 1 else 0))

/-! ### Promo-ledger lemmas -/

theorem find?_congr_pred {α : Type} (p q : α → Bool) (h : ∀ a, p a = q a) :
    ∀ l : List α, l.find? p = l.find? q := by
  intro l
  induction l with
  | nil => rfl
  | cons a t ih =>
    rw [List.find?_cons, List.find?_cons, h a, ih]

/-- The conditional increment preserves the `code` column, so the lookup of
a code after the increment returns the incremented row. -/
theorem find?_map_inc (l : List PromoRow) (code : String) :
    (l.map (incIfBelowCap code)).find? (fun p => p.code == code) =
      (l.find? (fun p => p.code == code)).map (incIfBelowCap code) := by
  rw [List.find?_map]
  rw [find?_congr_pred ((fun p => p.code == code) ∘ incIfBelowCap code)
    (fun p => p.code == code) ?_]
  intro a
  show ((incIfBelowCap code a).code == code) = (a.code == code)
  unfold incIfBelowCap
  by_cases hc : a.code = code ∧ a.used_count < a.max_uses
  · rw [if_pos hc]
  · rw [if_neg hc]

/-- `db_consume_promo` when the code is absent: no change, `None`. -/
theorem consume_absent {db : DB} {code : String}
    (hfind : db.promos.find? (fun p => p.code == code) = none) :
    db_consume_promo db code = (db, none) := by
  simp only [db_consume_promo, hfind]

/-- `db_consume_promo` when the cap is reached: no change, `None`. -/
theorem consume_at_cap {db : DB} {code : String} {row : PromoRow}
    (hfind : db.promos.find? (fun p => p.code == code) = some row)
    (hge : row.max_uses ≤ row.used_count) :
    db_consume_promo db code = (db, none) := by
  simp only [db_consume_promo, hfind]
  rw [if_pos hge]

/-- `db_consume_promo` when the code exists with spare capacity: the
conditional increment fires and the pre-increment row is returned. -/
theorem consume_success {db : DB} {code : String} {row : PromoRow}
    (hfind : db.promos.find? (fun p => p.code == code) = some row)
    (hlt : row.used_count < row.max_uses) :
    db_consume_promo db code =
      ({ db with promos := db.promos.map (incIfBelowCap code) }, some row) := by
  have hmem : row ∈ db.promos := List.mem_of_find?_eq_some hfind
  have hcode : row.code = code := by
    have hp := List.find?_some hfind
    simpa using hp
  have hmemf : row ∈ db.promos.filter
      (fun p => decide (p.code = code ∧ p.used_count < p.max_uses)) := by
    rw [List.mem_filter]
    refine ⟨hmem, ?_⟩
    simp only [decide_eq_true_eq]
    exact ⟨hcode, hlt⟩
  have hlen : ¬ (db.promos.filter
      (fun p => decide (p.code = code ∧ p.used_count < p.max_uses))).length = 0 := by
    intro h0
    rw [List.length_eq_zero] at h0
    rw [h0] at hmemf
    cases hmemf
  simp only [db_consume_promo, hfind]
  rw [if_neg (not_le.mpr hlt), if_neg hlen]

/-- Invariant of a run of consume calls: the code row keeps its identity
and cap, its `used_count` saturates at the cap, the number of successes is
the saturated difference, and nothing but the promo table changes. -/
theorem consumeRun_invariant (db : DB) (code : String) (row : PromoRow)
    (hfind : db.promos.find? (fun p => p.code == code) = some row)
    (hle : row.used_count ≤ row.max_uses) :
    ∀ M : Nat, ∃ rM : PromoRow,
      (consumeRun db code M).1.promos.find? (fun p => p.code == code) = some rM ∧
      rM.code = code ∧ rM.max_uses = row.max_uses ∧
      rM.used_count = min (row.used_count + M) row.max_uses ∧
      ((consumeRun db code M).2 : Int) =
        min (M : Int) (row.max_uses - row.used_count) ∧
      (consumeRun db code M).1.subs = db.subs ∧
      (consumeRun db code M).1.users = db.users := by
  have hcode : row.code = code := by
    have hp := List.find?_some hfind
    simpa using hp
  intro M
  induction M with
  | zero =>
    refine ⟨row, hfind, hcode, rfl, ?_, ?_, rfl, rfl⟩
    · omega
    · simp only [consumeRun, Nat.cast_zero]
      omega
  | succ k ih =>
    obtain ⟨rk, hfindk, hcodek, hmaxk, husedk, hcountk, hsubsk, husersk⟩ := ih
    by_cases hcap : rk.max_uses ≤ rk.used_count
    · have hstep := consume_at_cap hfindk hcap
      refine ⟨rk, ?_, hcodek, hmaxk, ?_, ?_, ?_, ?_⟩
      · show ((db_consume_promo (consumeRun db code k).1 code).1).promos.find?
          (fun p => p.code == code) = some rk
        rw [hstep]
        exact hfindk
      · omega
      · have hrun : (consumeRun db code (k + 1)).2 =
            (consumeRun db code k).2 +
              (if (db_consume_promo (consumeRun db code k).1 code).2.isSome
                then 1 else 0) := rfl
        rw [hrun]
        simp only [hstep, Option.isSome_none, Bool.false_eq_true, if_false, add_zero]
        rw [hcountk]
        omega
      · show ((db_consume_promo (consumeRun db code k).1 code).1).subs = db.subs
        rw [hstep]
        exact hsubsk
      · show ((db_consume_promo (consumeRun db code k).1 code).1).users = db.users
        rw [hstep]
        exact husersk
    · have hlt : rk.used_count < rk.max_uses := not_le.mp hcap
      have hstep := consume_success hfindk hlt
      have hinc : incIfBelowCap code rk = { rk with used_count := rk.used_count + 1 } := by
        unfold incIfBelowCap
        rw [if_pos ⟨hcodek, hlt⟩]
      refine ⟨{ rk with used_count := rk.used_count + 1 }, ?_, hcodek, hmaxk, ?_, ?_, ?_, ?_⟩
      · show ((db_consume_promo (consumeRun db code k).1 code).1).promos.find?
          (fun p => p.code == code) = some { rk with used_count := rk.used_count + 1 }
        rw [hstep]
        show ((consumeRun db code k).1.promos.map (incIfBelowCap code)).find?
          (fun p => p.code == code) = some { rk with used_count := rk.used_count + 1 }
        rw [find?_map_inc, hfindk, Option.map_some', hinc]
      · show rk.used_count + 1 = min (row.used_count + ((k : Nat) + 1 : Nat)) row.max_uses
        push_cast
        omega
      · have hrun : (consumeRun db code (k + 1)).2 =
            (consumeRun db code k).2 +
              (if (db_consume_promo (consumeRun db code k).1 code).2.isSome
                then 1 else 0) := rfl
        rw [hrun]
        simp only [hstep, Option.isSome_some, if_true]
        push_cast
        rw [hcountk]
        omega
      · show ((db_consume_promo (consumeRun db code k).1 code).1).subs = db.subs
        rw [hstep]
        exact hsubsk
      · show ((db_consume_promo (consumeRun db code k).1 code).1).users = db.users
        rw [hstep]
        exact husersk

/-! ### Sweep lemmas -/

theorem markActiveAs_tg_id (s : Status) (tg : Int) (a : SubRow) :
    (markActiveAs s tg a).tg_id = a.tg_id := by
  unfold markActiveAs
  by_cases hc : a.tg_id = tg ∧ a.status = Status.active
  · rw [if_pos hc]
  · rw [if_neg hc]

/-- A map that neither moves a row across the filter nor alters the rows it
keeps leaves the filtered list unchanged. -/
theorem filter_map_invariant {α : Type} (l : List α) (f : α → α) (p : α → Bool)
    (hp : ∀ a ∈ l, p (f a) = p a) (hid : ∀ a ∈ l, p a = true → f a = a) :
    (l.map f).filter p = l.filter p := by
  induction l with
  | nil => rfl
  | cons a l ih =>
    simp only [List.map_cons, List.filter_cons, hp a (List.mem_cons_self a l)]
    by_cases hpa : p a = true
    · rw [if_pos hpa, hid a (List.mem_cons_self a l) hpa,
        ih (fun x hx => hp x (List.mem_cons_of_mem a hx))
          (fun x hx => hid x (List.mem_cons_of_mem a hx)), if_pos hpa]
    · rw [if_neg hpa,
        ih (fun x hx => hp x (List.mem_cons_of_mem a hx))
          (fun x hx => hid x (List.mem_cons_of_mem a hx)), if_neg hpa]

/-- After marking identity `tg`, none of its rows is active. -/
theorem no_active_after_mark (l : List SubRow) (tg : Int) :
    ∀ r ∈ l.map (markActiveAs Status.expired tg), r.tg_id = tg →
      r.status ≠ Status.active := by
  intro r hr
  rcases List.mem_map.mp hr with ⟨a, ha, rfl⟩
  unfold markActiveAs
  by_cases hc : a.tg_id = tg ∧ a.status = Status.active
  · rw [if_pos hc]
    intro _ hab
    simp at hab
  · rw [if_neg hc]
    intro h1 h2
    exact hc ⟨h1, h2⟩

/-- Marking any identity cannot make a row of `tg` active again. -/
theorem mark_preserves_no_active (l : List SubRow) (t tg : Int)
    (h : ∀ r ∈ l, r.tg_id = tg → r.status ≠ Status.active) :
    ∀ r ∈ l.map (markActiveAs Status.expired t), r.tg_id = tg →
      r.status ≠ Status.active := by
  intro r hr
  rcases List.mem_map.mp hr with ⟨a, ha, rfl⟩
  unfold markActiveAs
  by_cases hc : a.tg_id = t ∧ a.status = Status.active
  · rw [if_pos hc]
    intro _ hab
    simp at hab
  · rw [if_neg hc]
    exact h a ha

/-- Marking an identity other than `tg` keeps the rows of `tg` verbatim. -/
theorem mark_other_filter (l : List SubRow) (t tg : Int) (hne : t ≠ tg) :
    (l.map (markActiveAs Status.expired t)).filter (fun r => decide (r.tg_id = tg)) =
      l.filter (fun r => decide (r.tg_id = tg)) := by
  refine filter_map_invariant l _ _ ?_ ?_
  · intro a _
    rw [markActiveAs_tg_id]
  · intro a _ hpa
    have htg : a.tg_id = tg := by simpa using hpa
    unfold markActiveAs
    rw [if_neg]
    rintro ⟨h1, -⟩
    exact hne (h1 ▸ htg)

/-- Membership in the success log of the sweep fold: exactly the already
logged users plus the processed users whose revoke call succeeded. -/
theorem sweep_fold_mem_log (oracle : Int → Bool) :
    ∀ (L : List Int) (acc : DB × List Int) (x : Int),
      (x ∈ (L.foldl (fun acc t =>
        if oracle t then (db_mark_user_expired acc.1 t, acc.2 ++ [t]) else acc) acc).2) ↔
      x ∈ acc.2 ∨ (x ∈ L ∧ oracle x = true) := by
  intro L
  induction L with
  | nil =>
    intro acc x
    simp
  | cons t L ih =>
    intro acc x
    rw [List.foldl_cons]
    by_cases ho : oracle t = true
    · rw [if_pos ho, ih]
      constructor
      · rintro (hx | ⟨hxL, hox⟩)
        · rcases List.mem_append.mp hx with h | h
          · exact Or.inl h
          · rcases List.mem_singleton.mp h with rfl
            exact Or.inr ⟨List.mem_cons_self _ _, ho⟩
        · exact Or.inr ⟨List.mem_cons_of_mem _ hxL, hox⟩
      · rintro (hx | ⟨hxtL, hox⟩)
        · exact Or.inl (List.mem_append_left _ hx)
        · rcases List.mem_cons.mp hxtL with rfl | hxL
          · exact Or.inl (List.mem_append_right _ (List.mem_singleton.mpr rfl))
          · exact Or.inr ⟨hxL, hox⟩
    · rw [if_neg ho, ih]
      constructor
      · rintro (hx | ⟨hxL, hox⟩)
        · exact Or.inl hx
        · exact Or.inr ⟨List.mem_cons_of_mem _ hxL, hox⟩
      · rintro (hx | ⟨hxtL, hox⟩)
        · exact Or.inl hx
        · rcases List.mem_cons.mp hxtL with rfl | hxL
          · exact absurd hox ho
          · exact Or.inr ⟨hxL, hox⟩

/-- The sweep fold preserves the absence of active rows for `tg`. -/
theorem sweep_fold_no_active (oracle : Int → Bool) (tg : Int) :
    ∀ (L : List Int) (acc : DB × List Int),
      (∀ r ∈ acc.1.subs, r.tg_id = tg → r.status ≠ Status.active) →
      ∀ r ∈ (L.foldl (fun acc t =>
          if oracle t then (db_mark_user_expired acc.1 t, acc.2 ++ [t]) else acc)
        acc).1.subs, r.tg_id = tg → r.status ≠ Status.active := by
  intro L
  induction L with
  | nil =>
    intro acc h
    exact h
  | cons t L ih =>
    intro acc h
    rw [List.foldl_cons]
    by_cases ho : oracle t = true
    · rw [if_pos ho]
      exact ih _ (mark_preserves_no_active acc.1.subs t tg h)
    · rw [if_neg ho]
      exact ih _ h

/-- Once a victim with a succeeding revoke call is processed, no row of
that identity is active after the fold. -/
theorem sweep_fold_kills_tg (oracle : Int → Bool) (tg : Int)
    (ho : oracle tg = true) :
    ∀ (L : List Int) (acc : DB × List Int), tg ∈ L →
      ∀ r ∈ (L.foldl (fun acc t =>
          if oracle t then (db_mark_user_expired acc.1 t, acc.2 ++ [t]) else acc)
        acc).1.subs, r.tg_id = tg → r.status ≠ Status.active := by
  intro L
  induction L with
  | nil =>
    intro acc h
    cases h
  | cons t L ih =>
    intro acc htgL
    rw [List.foldl_cons]
    by_cases het : t = tg
    · rw [het, if_pos ho]
      exact sweep_fold_no_active oracle tg L _
        (no_active_after_mark acc.1.subs tg)
    · rcases List.mem_cons.mp htgL with rfl | hxL
      · exact absurd rfl het
      · by_cases hot : oracle t = true
        · rw [if_pos hot]
          exact ih _ hxL
        · rw [if_neg hot]
          exact ih _ hxL

/-- A sweep in which the revoke call of `tg` raises leaves the rows of `tg`
verbatim (any marking done in the fold concerns other identities). -/
theorem sweep_fold_filter_frozen (oracle : Int → Bool) (tg : Int)
    (ho : oracle tg = false) :
    ∀ (L : List Int) (acc : DB × List Int),
      (L.foldl (fun acc t =>
          if oracle t then (db_mark_user_expired acc.1 t, acc.2 ++ [t]) else acc)
        acc).1.subs.filter (fun r => decide (r.tg_id = tg)) =
      acc.1.subs.filter (fun r => decide (r.tg_id = tg)) := by
  intro L
  induction L with
  | nil =>
    intro acc
    rfl
  | cons t L ih =>
    intro acc
    rw [List.foldl_cons]
    by_cases hot : oracle t = true
    · rw [if_pos hot, ih]
      have hne : t ≠ tg := by
        intro he
        rw [he, ho] at hot
        cases hot
      exact mark_other_filter acc.1.subs t tg hne
    · rw [if_neg hot]
      exact ih _

/-! ### Concrete scenario states used by the closed theorems below -/

/-- The store right after `db_init`: no users, subscriptions or promo codes. -/
def dbEmpty : DB := ⟨[], [], [], 0⟩

/-- Identity 1 is granted 10 days at `now = 1000` (provisioning succeeds). -/
def dbGrant1 : DB :=
  (grant_or_extend_access dbEmpty 1000 1 10 "month" none (some "T") true).1

/-- Identity 1, still active (until 865000), is granted 5 more days at
`now = 2000`. -/
def dbGrant2 : DB :=
  (grant_or_extend_access dbGrant1 2000 1 5 "month" none none true).1

/-- The expiry sweep runs at `now = 865000` (the end of the first period) with
every `revoke_user` call succeeding. -/
def dbSwept : DB := (job_expiry_check dbGrant2 865000 (fun _ => true)).1

/-- A store with one stale entitlement: the only period of identity 7 ended
at 100 and is still `active`. -/
def dbStale : DB := ⟨[7], [⟨0, 7, 0, 100, Status.active, "month", none, "", 0⟩], [], 1⟩

/-- A store holding the unused promo code `X` (10 days, 5 uses) and
identity 1. -/
def dbPromo : DB := ⟨[1], [], [⟨"X", 10, 5, 0, ""⟩], 0⟩

/-- A store holding promo code `X` with its usage cap reached
(`used_count = max_uses = 2`). -/
def dbExhausted : DB := ⟨[], [], [⟨"X", 10, 2, 2, ""⟩], 0⟩

/-- The subscription row produced by the extension grant in `dbGrant2`. -/
def rowExt : SubRow := ⟨1, 1, 1000, 1297000, Status.active, "month", none, "", 2000⟩

/-! ### Helper lemmas -/

theorem maxByEnd_eq_none (l : List SubRow) : maxByEnd l = none ↔ l = [] := by
  cases l with
  | nil => simp [maxByEnd]
  | cons r rs =>
    simp only [maxByEnd]
    cases h : maxByEnd rs with
    | none => simp
    | some m => by_cases hle : m.end_ts ≤ r.end_ts <;> simp [hle]

theorem maxByEnd_mem (l : List SubRow) :
    ∀ r, maxByEnd l = some r → r ∈ l := by
  induction l with
  | nil => intro r h; simp [maxByEnd] at h
  | cons a rs ih =>
    intro r h
    unfold maxByEnd at h
    cases hm : maxByEnd rs with
    | none =>
      rw [hm] at h
      simp only [Option.some.injEq] at h
      subst h
      exact List.mem_cons_self a rs
    | some m =>
      rw [hm] at h
      by_cases hle : m.end_ts ≤ a.end_ts
      · simp only [if_pos hle, Option.some.injEq] at h
        subst h
        exact List.mem_cons_self a rs
      · simp only [if_neg hle, Option.some.injEq] at h
        subst h
        exact List.mem_cons_of_mem a (ih m hm)

theorem maxByEnd_le (l : List SubRow) :
    ∀ r, maxByEnd l = some r → ∀ x ∈ l, x.end_ts ≤ r.end_ts := by
  induction l with
  | nil => intro r h; simp [maxByEnd] at h
  | cons a rs ih =>
    intro r h x hx
    unfold maxByEnd at h
    cases hm : maxByEnd rs with
    | none =>
      rw [hm] at h
      simp only [Option.some.injEq] at h
      subst h
      have hrs : rs = [] := (maxByEnd_eq_none rs).mp hm
      subst hrs
      rcases List.mem_cons.mp hx with hxa | hx0
      · subst hxa; exact le_refl _
      · cases hx0
    | some m =>
      rw [hm] at h
      by_cases hle : m.end_ts ≤ a.end_ts
      · simp only [if_pos hle, Option.some.injEq] at h
        subst h
        rcases List.mem_cons.mp hx with hxa | hx1
        · subst hxa; exact le_refl _
        · exact le_trans (ih m hm x hx1) hle
      · simp only [if_neg hle, Option.some.injEq] at h
        subst h
        rcases List.mem_cons.mp hx with hxa | hx1
        · subst hxa; omega
        · exact ih m hm x hx1

theorem mem_activeCandidates {db : DB} {tg now : Int} {r : SubRow} :
    r ∈ activeCandidates db tg now ↔
      r ∈ db.subs ∧ r.tg_id = tg ∧ r.status = Status.active ∧ now < r.end_ts := by
  simp [activeCandidates, isActiveUnexpired, List.mem_filter]

/-- If the lookup finds no active-and-unexpired row, every active row of
the identity has already ended. -/
theorem bound_of_no_active {db : DB} {tg t0 : Int}
    (h : db_get_active_sub db tg t0 = none) :
    ∀ r ∈ db.subs, r.tg_id = tg → r.status = Status.active → r.end_ts ≤ t0 := by
  intro r hr h1 h2
  by_contra hlt
  push_neg at hlt
  have hmem : r ∈ activeCandidates db tg t0 :=
    mem_activeCandidates.mpr ⟨hr, h1, h2, hlt⟩
  have hnil : activeCandidates db tg t0 = [] := (maxByEnd_eq_none _).mp h
  rw [hnil] at hmem
  cases hmem

/-- The stale-row update of a grant cannot raise the `end_ts` bound of the
active rows of an identity. -/
theorem expire_map_bound (l : List SubRow) (tg t u : Int)
    (h : ∀ r ∈ l, r.tg_id = tg → r.status = Status.active → r.end_ts ≤ t) :
    ∀ r ∈ l.map (expireStale tg u), r.tg_id = tg → r.status = Status.active →
      r.end_ts ≤ t := by
  intro r hr
  rcases List.mem_map.mp hr with ⟨a, ha, rfl⟩
  unfold expireStale
  by_cases hc : a.tg_id = tg ∧ a.status = Status.active ∧ a.end_ts ≤ u
  · rw [if_pos hc]
    intro _ hab
    simp at hab
  · rw [if_neg hc]
    exact h a ha

/-- Rows whose active periods all ended by `t ≤ now` contribute nothing to
the active-candidate filter at `now`. -/
theorem filter_active_nil (l : List SubRow) (tg t now : Int)
    (hb : ∀ r ∈ l, r.tg_id = tg → r.status = Status.active → r.end_ts ≤ t)
    (hle : t ≤ now) :
    l.filter (isActiveUnexpired tg now) = [] := by
  rw [List.filter_eq_nil_iff]
  intro a ha
  unfold isActiveUnexpired
  simp only [decide_eq_true_eq, not_and, not_lt]
  intro h1 h2
  exact le_trans (hb a ha h1 h2) hle

/-! ### Theorems for the claims -/

/-- C10: `db_get_active_sub` (`ORDER BY end_ts DESC LIMIT 1`) returns a row
of the store that matches the tg-id/active/unexpired condition and whose
`end_ts` is greatest among all such rows, so when several active rows with
a future `end_ts` exist, the lookup used by the status display and the
extension arithmetic selects the one with the greatest `end_ts`. -/
theorem C10_lookup_picks_greatest_end (db : DB) (tg now : Int) (r : SubRow)
    (h : db_get_active_sub db tg now = some r) :
    r ∈ db.subs ∧ r.tg_id = tg ∧ r.status = Status.active ∧ now < r.end_ts ∧
    ∀ r2 ∈ db.subs, r2.tg_id = tg → r2.status = Status.active →
      now < r2.end_ts → r2.end_ts ≤ r.end_ts := by
  have hmem : r ∈ activeCandidates db tg now := maxByEnd_mem _ r h
  have h1 := mem_activeCandidates.mp hmem
  refine ⟨h1.1, h1.2.1, h1.2.2.1, h1.2.2.2, ?_⟩
  intro r2 h2 ha hb hc
  exact maxByEnd_le _ r h r2 (mem_activeCandidates.mpr ⟨h2, ha, hb, hc⟩)

/-- C10 witness: `dbGrant2` holds two active rows for identity 1 (ending at
865000 and 1297000); the lookup at `now = 2000` returns the one ending at
1297000, and the theorem applies to it. -/
theorem C10_lookup_witness :
    db_get_active_sub dbGrant2 1 2000 = some rowExt ∧
    (rowExt ∈ dbGrant2.subs ∧ rowExt.tg_id = 1 ∧ rowExt.status = Status.active ∧
     (2000 : Int) < rowExt.end_ts ∧
     ∀ r2 ∈ dbGrant2.subs, r2.tg_id = 1 → r2.status = Status.active →
       (2000 : Int) < r2.end_ts → r2.end_ts ≤ rowExt.end_ts) :=
  ⟨by decide, C10_lookup_picks_greatest_end dbGrant2 1 2000 rowExt (by decide)⟩

/-- C8: when provisioning fails after the grant was persisted
(`provision_ok = false`), `grant_or_extend_access` reports failure to the
caller, yet the store equals exactly the post-persist state and the freshly
inserted active row for the identity is present in it — the grant is not
removed or rolled back. -/
theorem C8_grant_recorded_despite_provision_failure (db : DB)
    (now tg duration_days : Int) (plan_key : String)
    (promo_code : Option String) (tx_id : Option String) :
    (grant_or_extend_access db now tg duration_days plan_key promo_code tx_id false).2 = false ∧
    (grant_or_extend_access db now tg duration_days plan_key promo_code tx_id false).1 =
      (db_create_or_extend_sub (db_upsert_user db tg) now tg duration_days
        plan_key promo_code tx_id).1 ∧
    ∃ r ∈ (grant_or_extend_access db now tg duration_days plan_key promo_code tx_id false).1.subs,
      r.tg_id = tg ∧ r.status = Status.active ∧ r.created_at = now := by
  refine ⟨rfl, rfl, ?_⟩
  simp only [grant_or_extend_access, db_create_or_extend_sub]
  exact ⟨_, List.mem_append_right _ (List.mem_singleton.mpr rfl), rfl, rfl, rfl⟩

/-- C4: extension is additive and monotonic.  Starting from a store where
identity `tg` has no active-and-unexpired period at `t0`, granting `d1`
days at `t0` and then `d2` days at `t1` (before the first period ends, so
with no intervening expiry) yields an active period that keeps
`start_ts = t0` and satisfies `end_ts = start_ts + (d1 + d2) * 86400`;
this `end_ts` is no earlier than what either grant alone would have
produced (`t0 + d1 * 86400`, resp. `t1 + d2 * 86400`). -/
theorem C4_extension_additive (db : DB) (tg t0 t1 d1 d2 : Int)
    (p1 p2 : String) (pc1 pc2 tx1 tx2 : Option String)
    (h0 : db_get_active_sub db tg t0 = none)
    (h01 : t0 ≤ t1) (h1 : t1 < t0 + d1 * 86400) (hd2 : 0 < d2) :
    ∃ r, db_get_active_sub
        (db_create_or_extend_sub
          (db_create_or_extend_sub db t0 tg d1 p1 pc1 tx1).1
          t1 tg d2 p2 pc2 tx2).1 tg t1 = some r ∧
      r.status = Status.active ∧ r.start_ts = t0 ∧
      r.end_ts = r.start_ts + (d1 + d2) * 86400 ∧
      t0 + d1 * 86400 ≤ r.end_ts ∧ t1 + d2 * 86400 ≤ r.end_ts := by
  have hbound := bound_of_no_active h0
  set row1 : SubRow :=
    ⟨db.nextId, tg, t0, t0 + d1 * 86400, Status.active, p1, pc1, tx1.getD "", t0⟩
    with hrow1
  set db1 : DB := (db_create_or_extend_sub db t0 tg d1 p1 pc1 tx1).1 with hdb1
  have hsubs1 : db1.subs = db.subs.map (expireStale tg t0) ++ [row1] := by
    rw [hdb1]
    simp only [db_create_or_extend_sub, h0]
  have hnext1 : db1.nextId = db.nextId + 1 := by
    rw [hdb1]
    simp only [db_create_or_extend_sub, h0]
  have hrow1active : isActiveUnexpired tg t1 row1 = true := by
    simp only [isActiveUnexpired, decide_eq_true_eq]
    exact ⟨True.intro, True.intro, h1⟩
  have hcand1 : activeCandidates db1 tg t1 = [row1] := by
    unfold activeCandidates
    rw [hsubs1, List.filter_append,
      filter_active_nil _ tg t0 t1 (expire_map_bound _ tg t0 t0 hbound) h01]
    simp [hrow1active]
  have hget1 : db_get_active_sub db1 tg t1 = some row1 := by
    unfold db_get_active_sub
    rw [hcand1]
    rfl
  set row2 : SubRow :=
    ⟨db1.nextId, tg, t0, t0 + d1 * 86400 + d2 * 86400, Status.active, p2, pc2,
      tx2.getD "", t1⟩ with hrow2
  have hsubs2 : (db_create_or_extend_sub db1 t1 tg d2 p2 pc2 tx2).1.subs =
      db1.subs.map (expireStale tg t1) ++ [row2] := by
    simp only [db_create_or_extend_sub, hget1]
  have hrow1keep : expireStale tg t1 row1 = row1 := by
    unfold expireStale
    rw [if_neg]
    rintro ⟨-, -, hle⟩
    rw [hrow1] at hle
    simp only at hle
    omega
  have hrow2active : isActiveUnexpired tg t1 row2 = true := by
    simp only [isActiveUnexpired, decide_eq_true_eq]
    refine ⟨True.intro, True.intro, ?_⟩
    show t1 < t0 + d1 * 86400 + d2 * 86400
    omega
  have hcand2 : activeCandidates (db_create_or_extend_sub db1 t1 tg d2 p2 pc2 tx2).1 tg t1
      = [row1, row2] := by
    unfold activeCandidates
    rw [hsubs2, hsubs1, List.map_append, List.filter_append, List.filter_append,
      filter_active_nil _ tg t0 t1
        (expire_map_bound _ tg t0 t1 (expire_map_bound _ tg t0 t0 hbound)) h01]
    simp [hrow1keep, hrow1active, hrow2active]
  refine ⟨row2, ?_, rfl, rfl, ?_, ?_, ?_⟩
  · unfold db_get_active_sub
    rw [hcand2]
    show (match maxByEnd [row2] with
      | none => some row1
      | some m => if m.end_ts ≤ row1.end_ts then some row1 else some m) = some row2
    show (if row2.end_ts ≤ row1.end_ts then some row1 else some row2) = some row2
    rw [if_neg]
    show ¬(t0 + d1 * 86400 + d2 * 86400 ≤ t0 + d1 * 86400)
    omega
  · show t0 + d1 * 86400 + d2 * 86400 = t0 + (d1 + d2) * 86400
    ring
  · show t0 + d1 * 86400 ≤ t0 + d1 * 86400 + d2 * 86400
    omega
  · show t1 + d2 * 86400 ≤ t0 + d1 * 86400 + d2 * 86400
    omega

/-- C4 witness: identity 1 with an empty store is granted 10 days at
`t0 = 1000` and 5 more at `t1 = 2000`; the resulting active period starts
at 1000 and ends at `1000 + 15 * 86400 = 1297000`. -/
theorem C4_extension_witness :
    db_get_active_sub dbEmpty 1 1000 = none ∧ (1000 : Int) ≤ 2000 ∧
    (2000 : Int) < 1000 + 10 * 86400 ∧ (0 : Int) < 5 ∧
    (∃ r, db_get_active_sub
        (db_create_or_extend_sub
          (db_create_or_extend_sub dbEmpty 1000 1 10 "month" none (some "T")).1
          2000 1 5 "month" none none).1 1 2000 = some r ∧
      r.status = Status.active ∧ r.start_ts = 1000 ∧
      r.end_ts = r.start_ts + (10 + 5) * 86400 ∧
      (1000 : Int) + 10 * 86400 ≤ r.end_ts ∧ (2000 : Int) + 5 * 86400 ≤ r.end_ts) :=
  ⟨by decide, by decide, by decide, by decide,
    C4_extension_additive dbEmpty 1 1000 2000 10 5 "month" "month" none none
      (some "T") none (by decide) (by decide) (by decide) (by decide)⟩

/-- C1: the claim states that at most one subscription row per identity is
`active` after any operation sequence.  The code violates it: granting
10 days to identity 1 at `now = 1000` and then 5 more days at `now = 2000`
(while the first period is active and unexpired) leaves TWO rows with
`status = active` for identity 1, because `db_create_or_extend_sub` only
expires old rows satisfying `end_ts <= now`. -/
theorem C1_two_active_rows_after_extension :
    (dbGrant2.subs.filter
      (fun r => decide (r.tg_id = 1 ∧ r.status = Status.active))).length = 2 := by
  decide

/-- C2: the claim states that when an active-and-unexpired period exists,
the grant creates a new row with the old `start_ts` and `end_ts + duration`
AND flips the existing row to `expired` in the same transaction.
Evaluating the code: the arithmetic of the new row matches
(`start_ts = 1000`, `end_ts = 865000 + 5*86400 = 1297000`), but the
existing row keeps `status = active` — the conditional
`UPDATE ... WHERE end_ts<=now` cannot match a row whose `end_ts` is still
in the future. -/
theorem C2_existing_row_not_expired :
    dbGrant2.subs =
      [⟨0, 1, 1000, 865000, Status.active, "month", none, "T", 1000⟩,
       ⟨1, 1, 1000, 1297000, Status.active, "month", none, "", 2000⟩] := by
  decide

/-- C5 counterexample: the claim states a sweep never changes the status of
a period whose `end_ts` is still in the future.  In the reachable state
`dbGrant2`, row 1 ends at 1297000; the sweep at `now = 865000` flips it to
`expired` anyway, because `db_mark_user_expired` has no `end_ts` guard. -/
theorem C5_sweep_expires_future_period :
    (∃ r ∈ dbGrant2.subs, r.rid = 1 ∧ r.status = Status.active ∧
       (865000 : Int) < r.end_ts) ∧
    (∃ r ∈ dbSwept.subs, r.rid = 1 ∧ r.status = Status.expired ∧
       (865000 : Int) < r.end_ts) := by
  decide

/-- C6 counterexample: the claim states an identity whose period has ended
is transitioned to `expired` and deprovisioned after at most one sweep
interval even if the first deprovisioning attempt fails transiently.  With
identity 7 expired since time 100, the sweep at time 200 whose
`revoke_user` call raises leaves the row `active` and untouched — the
transition does not happen within that sweep interval. -/
theorem C6_failed_revoke_leaves_row_active :
    db_all_expired_to_revoke dbStale 200 = [7] ∧
    (job_expiry_check dbStale 200 (fun _ => false)).1 = dbStale ∧
    (job_expiry_check dbStale 200 (fun _ => false)).2 = [] := by
  decide

/-- C7 counterexample: the claim states a failure after the ledger
increment but before the grant is recorded rolls the increment back.
Redeeming `X` from `dbPromo` with the grant step aborting after
`db_consume_promo` committed: `used_count` stays incremented to 1 while no
subscription row was recorded — the increment is not rolled back. -/
theorem C7_increment_survives_grant_failure :
    (cmd_redeem dbPromo 1000 1 "X" true true).1.promos = [⟨"X", 10, 5, 1, ""⟩] ∧
    (cmd_redeem dbPromo 1000 1 "X" true true).1.subs = [] ∧
    (cmd_redeem dbPromo 1000 1 "X" true true).2 = RedeemOutcome.aborted := by
  decide

/-- C9 counterexample: the claim states the redeem operation returns
`NotFound` exactly when the code is absent and `Exhausted` exactly when the
cap is reached.  The code returns the same value `None` in both situations:
on `dbEmpty` (code `X` absent) and on `dbExhausted` (code `X` present with
`used_count = max_uses`) `db_consume_promo` yields identical results, so
the two failure modes are not distinguished. -/
theorem C9_failure_modes_not_distinguished :
    (db_consume_promo dbEmpty "X").2 = none ∧
    (db_consume_promo dbExhausted "X").2 = none ∧
    dbEmpty.promos.find? (fun p => p.code == "X") = none ∧
    (∃ p ∈ dbExhausted.promos, p.code = "X" ∧ p.max_uses ≤ p.used_count) := by
  decide

/-- C9 amended: `db_consume_promo` does NOT distinguish its two failure
modes in its return value: it yields `None` exactly when the code is
absent OR the code exists with its cap reached, and it yields the row
exactly when the code exists with spare capacity.  The caller `cmd_redeem`
accordingly reports one combined invalid-or-exhausted message. -/
theorem C9_redeem_failures_combined (db : DB) (code : String) :
    ((db_consume_promo db code).2 = none ↔
      db.promos.find? (fun p => p.code == code) = none ∨
      ∃ row, db.promos.find? (fun p => p.code == code) = some row ∧
        row.max_uses ≤ row.used_count) ∧
    ∀ row, db.promos.find? (fun p => p.code == code) = some row →
      row.used_count < row.max_uses →
      (db_consume_promo db code).2 = some row := by
  constructor
  · constructor
    · intro hnone
      cases hfind : db.promos.find? (fun p => p.code == code) with
      | none => exact Or.inl rfl
      | some row =>
        by_cases hge : row.max_uses ≤ row.used_count
        · exact Or.inr ⟨row, rfl, hge⟩
        · rw [consume_success hfind (not_le.mp hge)] at hnone
          cases hnone
    · rintro (hfind | ⟨row, hfind, hge⟩)
      · rw [consume_absent hfind]
      · rw [consume_at_cap hfind hge]
  · intro row hfind hlt
    rw [consume_success hfind hlt]

/-- C9 amended witness: the characterization applied to the store whose
code `X` is at its cap. -/
theorem C9_redeem_failures_combined_witness :
    ((db_consume_promo dbExhausted "X").2 = none ↔
      dbExhausted.promos.find? (fun p => p.code == "X") = none ∨
      ∃ row, dbExhausted.promos.find? (fun p => p.code == "X") = some row ∧
        row.max_uses ≤ row.used_count) ∧
    ∀ row, dbExhausted.promos.find? (fun p => p.code == "X") = some row →
      row.used_count < row.max_uses →
      (db_consume_promo dbExhausted "X").2 = some row :=
  C9_redeem_failures_combined dbExhausted "X"

/-- C7 amended: the ledger increment is committed by `db_consume_promo`
before the grant step starts; if the grant step then fails, the final
state keeps `used_count` incremented while no subscription row was
recorded — the increment is NOT rolled back (there is no shared
transaction). -/
theorem C7_increment_not_rolled_back (db : DB) (now tg : Int) (code : String)
    (row : PromoRow)
    (hfind : db.promos.find? (fun p => p.code == code) = some row)
    (hlt : row.used_count < row.max_uses) :
    (cmd_redeem db now tg code true true).1.subs = db.subs ∧
    (cmd_redeem db now tg code true true).1.users = db.users ∧
    promoUsed db code = some row.used_count ∧
    promoUsed (cmd_redeem db now tg code true true).1 code =
      some (row.used_count + 1) ∧
    (cmd_redeem db now tg code true true).2 = RedeemOutcome.aborted := by
  have hcode : row.code = code := by
    have hp := List.find?_some hfind
    simpa using hp
  have hsucc := consume_success hfind hlt
  have hcmd : cmd_redeem db now tg code true true =
      ({ db with promos := db.promos.map (incIfBelowCap code) },
        RedeemOutcome.aborted) := by
    simp [cmd_redeem, hsucc]
  rw [hcmd]
  refine ⟨rfl, rfl, ?_, ?_, rfl⟩
  · unfold promoUsed
    rw [hfind]
    rfl
  · unfold promoUsed
    show ((db.promos.map (incIfBelowCap code)).find?
      (fun p => p.code == code)).map (fun p => p.used_count) =
      some (row.used_count + 1)
    rw [find?_map_inc, hfind, Option.map_some', Option.map_some']
    unfold incIfBelowCap
    rw [if_pos ⟨hcode, hlt⟩]

/-- C7 amended witness: redeeming `X` from `dbPromo` with the grant step
aborting leaves `used_count = 1` and no subscription rows. -/
theorem C7_increment_not_rolled_back_witness :
    dbPromo.promos.find? (fun p => p.code == "X") = some ⟨"X", 10, 5, 0, ""⟩ ∧
    ((cmd_redeem dbPromo 1000 1 "X" true true).1.subs = dbPromo.subs ∧
     (cmd_redeem dbPromo 1000 1 "X" true true).1.users = dbPromo.users ∧
     promoUsed dbPromo "X" = some 0 ∧
     promoUsed (cmd_redeem dbPromo 1000 1 "X" true true).1 "X" = some 1 ∧
     (cmd_redeem dbPromo 1000 1 "X" true true).2 = RedeemOutcome.aborted) :=
  ⟨by decide, C7_increment_not_rolled_back dbPromo 1000 1 "X" ⟨"X", 10, 5, 0, ""⟩
    (by decide) (by decide)⟩

/-- C3: for a promo code created with cap `N = max_uses` and `used_count =
0`, over any sequence of `M ≥ N` consume calls exactly `N` succeed; after
`k` calls the ledger shows `used_count = min k N` (so `used_count` never
decreases, never exceeds the cap, and moves only by the single conditional
increment per successful call); and every call made once the cap is
reached fails while the code is still present at its cap (the Exhausted
outcome — the source returns the combined `None`). -/
theorem C3_promo_cap (db : DB) (code : String) (row : PromoRow) (M : Nat)
    (hfind : db.promos.find? (fun p => p.code == code) = some row)
    (h0 : row.used_count = 0) (hN : 0 ≤ row.max_uses)
    (hM : row.max_uses ≤ (M : Int)) :
    ((consumeRun db code M).2 : Int) = row.max_uses ∧
    (∀ k : Nat, promoUsed (consumeRun db code k).1 code =
      some (min (k : Int) row.max_uses)) ∧
    (∀ k : Nat, row.max_uses ≤ (k : Int) →
      (db_consume_promo (consumeRun db code k).1 code).2 = none ∧
      promoUsed (consumeRun db code k).1 code = some row.max_uses) := by
  have hle : row.used_count ≤ row.max_uses := by omega
  refine ⟨?_, ?_, ?_⟩
  · obtain ⟨rM, _, _, _, _, hcount, _, _⟩ := consumeRun_invariant db code row hfind hle M
    rw [hcount]
    omega
  · intro k
    obtain ⟨rk, hfindk, _, _, hused, _, _, _⟩ := consumeRun_invariant db code row hfind hle k
    unfold promoUsed
    rw [hfindk, Option.map_some', hused]
    congr 1
    omega
  · intro k hk
    obtain ⟨rk, hfindk, _, hmaxk, hused, _, _, _⟩ := consumeRun_invariant db code row hfind hle k
    have hcap : rk.max_uses ≤ rk.used_count := by omega
    constructor
    · rw [consume_at_cap hfindk hcap]
    · unfold promoUsed
      rw [hfindk, Option.map_some', hused]
      congr 1
      omega

/-- C3 witness: code `X` with `max_uses = 5`, `used_count = 0`; over 7
consume calls exactly 5 succeed, the count saturates at 5, and calls past
the cap fail with the code still present at its cap. -/
theorem C3_promo_cap_witness :
    dbPromo.promos.find? (fun p => p.code == "X") = some ⟨"X", 10, 5, 0, ""⟩ ∧
    (((consumeRun dbPromo "X" 7).2 : Int) = 5 ∧
     (∀ k : Nat, promoUsed (consumeRun dbPromo "X" k).1 "X" =
       some (min (k : Int) 5)) ∧
     (∀ k : Nat, (5 : Int) ≤ (k : Int) →
       (db_consume_promo (consumeRun dbPromo "X" k).1 "X").2 = none ∧
       promoUsed (consumeRun dbPromo "X" k).1 "X" = some 5)) :=
  ⟨by decide, C3_promo_cap dbPromo "X" ⟨"X", 10, 5, 0, ""⟩ 7
    (by decide) (by decide) (by decide) (by decide)⟩

/-- C5 amended: the mark-expired transition of the sweeper has no `end_ts`
guard: it flips EVERY active row of the swept identity to expired — also
one whose `end_ts` is still in the future — and changes nothing else (other
identities, non-active rows, users and promos are untouched). -/
theorem C5_mark_expired_ignores_end_ts (db : DB) (tg : Int) :
    (db_mark_user_expired db tg).users = db.users ∧
    (db_mark_user_expired db tg).promos = db.promos ∧
    List.Forall₂ (fun r r2 =>
      (r.tg_id = tg ∧ r.status = Status.active →
        r2 = { r with status := Status.expired }) ∧
      (¬(r.tg_id = tg ∧ r.status = Status.active) → r2 = r))
      db.subs (db_mark_user_expired db tg).subs ∧
    ∀ r ∈ (db_mark_user_expired db tg).subs, r.tg_id = tg →
      r.status ≠ Status.active := by
  refine ⟨rfl, rfl, ?_, no_active_after_mark db.subs tg⟩
  show List.Forall₂ _ db.subs (db.subs.map (markActiveAs Status.expired tg))
  rw [List.forall₂_map_right_iff, List.forall₂_same]
  intro r _
  unfold markActiveAs
  by_cases hc : r.tg_id = tg ∧ r.status = Status.active
  · rw [if_pos hc]
    exact ⟨fun _ => rfl, fun hn => absurd hc hn⟩
  · rw [if_neg hc]
    exact ⟨fun h => absurd h hc, fun _ => rfl⟩

/-- C5 amended witness: the characterization applied to the swept state of
the extension scenario (`dbGrant2`, identity 1). -/
theorem C5_mark_expired_ignores_end_ts_witness :
    (db_mark_user_expired dbGrant2 1).users = dbGrant2.users ∧
    (db_mark_user_expired dbGrant2 1).promos = dbGrant2.promos ∧
    List.Forall₂ (fun r r2 =>
      (r.tg_id = 1 ∧ r.status = Status.active →
        r2 = { r with status := Status.expired }) ∧
      (¬(r.tg_id = 1 ∧ r.status = Status.active) → r2 = r))
      dbGrant2.subs (db_mark_user_expired dbGrant2 1).subs ∧
    ∀ r ∈ (db_mark_user_expired dbGrant2 1).subs, r.tg_id = 1 →
      r.status ≠ Status.active :=
  C5_mark_expired_ignores_end_ts dbGrant2 1

/-- C6 amended: an identity with a lapsed active period is picked up by the
running sweep; if its `revoke_user` call completes without raising, the
sweep marks it expired (no active rows remain) and logs the revocation; if
the call raises, its rows are left verbatim and it is not logged, so it is
retried at the next sweep — enforcement happens at the first sweep whose
revoke call succeeds, which can be later than one sweep interval. -/
theorem C6_sweep_retries_until_revoke_succeeds (db : DB) (now tg : Int)
    (oracle : Int → Bool) (hu : tg ∈ db.users)
    (hex : ∃ r ∈ db.subs, r.tg_id = tg ∧ r.status = Status.active ∧
      r.end_ts ≤ now) :
    (oracle tg = true →
      (∀ r ∈ (job_expiry_check db now oracle).1.subs,
        r.tg_id = tg → r.status ≠ Status.active) ∧
      tg ∈ (job_expiry_check db now oracle).2) ∧
    (oracle tg = false →
      (job_expiry_check db now oracle).1.subs.filter
          (fun r => decide (r.tg_id = tg)) =
        db.subs.filter (fun r => decide (r.tg_id = tg)) ∧
      tg ∉ (job_expiry_check db now oracle).2) := by
  have hvict : tg ∈ db_all_expired_to_revoke db now := by
    unfold db_all_expired_to_revoke
    rw [List.mem_dedup, List.mem_filter]
    refine ⟨hu, ?_⟩
    rw [List.any_eq_true]
    obtain ⟨r, hr, h1, h2, h3⟩ := hex
    exact ⟨r, hr, decide_eq_true ⟨h1, h2, h3⟩⟩
  constructor
  · intro ho
    constructor
    · exact sweep_fold_kills_tg oracle tg ho
        (db_all_expired_to_revoke db now) (db, []) hvict
    · exact (sweep_fold_mem_log oracle
        (db_all_expired_to_revoke db now) (db, []) tg).mpr (Or.inr ⟨hvict, ho⟩)
  · intro ho
    constructor
    · exact sweep_fold_filter_frozen oracle tg ho
        (db_all_expired_to_revoke db now) (db, [])
    · intro hmem
      rcases (sweep_fold_mem_log oracle
        (db_all_expired_to_revoke db now) (db, []) tg).mp hmem with h | ⟨-, hox⟩
      · cases h
      · rw [hox] at ho
        cases ho

/-- C6 amended witness: identity 7 of `dbStale` (period ended at 100) under
a sweep at 200 whose revoke calls all succeed. -/
theorem C6_sweep_retries_witness :
    (7 : Int) ∈ dbStale.users ∧
    (∃ r ∈ dbStale.subs, r.tg_id = 7 ∧ r.status = Status.active ∧
      r.end_ts ≤ 200) ∧
    (((fun _ : Int => true) 7 = true →
      (∀ r ∈ (job_expiry_check dbStale 200 (fun _ => true)).1.subs,
        r.tg_id = 7 → r.status ≠ Status.active) ∧
      (7 : Int) ∈ (job_expiry_check dbStale 200 (fun _ => true)).2) ∧
     ((fun _ : Int => true) 7 = false →
      (job_expiry_check dbStale 200 (fun _ => true)).1.subs.filter
          (fun r => decide (r.tg_id = 7)) =
        dbStale.subs.filter (fun r => decide (r.tg_id = 7)) ∧
      (7 : Int) ∉ (job_expiry_check dbStale 200 (fun _ => true)).2)) :=
  ⟨by decide, by decide,
    C6_sweep_retries_until_revoke_succeeds dbStale 200 7 (fun _ => true)
      (by decide) (by decide)⟩

end VpnBot
